import Mathlib

/-!
Verification of the multikubectl core: the concurrent dispatcher
(pkg/executor/kubectl.go), the kubeconfig context manager (pkg/cluster),
and the two output-merge algorithms (pkg/output).

Go strings are modelled as `List Char` (kubectl output and context names are
ASCII in practice, so Go's byte-length `len` coincides with the character
count).  Go's `error` interface values are modelled by the inductive
`GoError`, one constructor per construction site in the source, carrying the
message that `%v` renders.  Effectful subprocess execution is modelled by a
`ProcOutcome` oracle describing what the operating system did; `executeOne`
is the source's classification of that outcome into a `Result`.
-/

namespace Multikubectl

/-- A Go `error` value as the executor can construct it.
`stderrMsg` is `fmt.Errorf("%s", stderr.String())` from the
`*exec.ExitError` branch of `executeOne`; `spawnErr` is the raw error
returned by `cmd.Run()` when the process could not be started (the `else`
branch).  Two Go errors are identified here exactly when they were built by
the same construction site with the same message, which is all the rest of
the program can observe of them. -/
inductive GoError where
  | stderrMsg (msg : List Char)
  | spawnErr (msg : List Char)
deriving DecidableEq

/-- The text `%v` renders for a `GoError` (Go `err.Error()`). -/
def GoError.message : GoError → List Char
  | .stderrMsg m => m
  | .spawnErr m => m

/-- `executor.Result` from pkg/executor/kubectl.go. -/
structure Result where
  Context : List Char
  Output : List Char
  Error : Option GoError
  ExitCode : Int
deriving DecidableEq

/-- The zero value `executor.Result{}`, used by `make([]Result, n)`. -/
def defaultResult : Result := ⟨[], [], none, 0⟩

/-- What the operating system did with one target's subprocess.  This is the
environment model for `cmd.Run()` inside `executeOne`:
  * `exited code stdout stderr` — the process started and exited on its own;
    `cmd.Run()` returns nil iff `code = 0`, otherwise an `*exec.ExitError`
    whose `ExitCode()` is `code`;
  * `startFailed msg` — the process never started (e.g. missing executable);
    `cmd.Run()` returns a non-`ExitError` error and both capture buffers are
    empty;
  * `timedOut stdout stderr` — the context deadline expired while the
    process was running, so `exec.CommandContext` killed it; `cmd.Run()`
    then returns an `*exec.ExitError` for the signal-killed process, whose
    `ExitCode()` is `-1`.  (The corner case of the deadline expiring before
    `Start` is not modelled; the claims concern a running subprocess that
    exceeds its deadline.) -/
inductive ProcOutcome where
  | exited (code : Int) (stdout stderr : List Char)
  | startFailed (msg : List Char)
  | timedOut (stdout stderr : List Char)

/-- The stdout text captured in the `stdout` buffer for an outcome. -/
def capturedStdout : ProcOutcome → List Char
  | .exited _ out _ => out
  | .startFailed _ => []
  | .timedOut out _ => out

/-- `Executor.executeOne` (pkg/executor/kubectl.go:51-85): classification of
the subprocess outcome into a `Result`.  The result is built with
`Context = contextName` and `Output = stdout.String()` unconditionally; then
if `cmd.Run()` returned an error, the `*exec.ExitError` branch records the
exit code and wraps the captured stderr text, and the other branch stores
the run error itself. -/
def executeOne (contextName : List Char) (o : ProcOutcome) : Result :=
  match o with
  | .exited code out errTxt =>
      if code = 0 then ⟨contextName, out, none, 0⟩
      else ⟨contextName, out, some (.stderrMsg errTxt), code⟩
  | .startFailed msg => ⟨contextName, [], some (.spawnErr msg), 0⟩
  | .timedOut out errTxt => ⟨contextName, out, some (.stderrMsg errTxt), -1⟩

/-- `Executor.Execute` (pkg/executor/kubectl.go:35-49).  One goroutine per
context writes `executeOne(contexts[i], args)` into slot `i` of a
preallocated `make([]Result, len(contexts))`; `wg.Wait()` joins them all.
The interleaving is modelled by `order`, the sequence in which the workers'
writes land; a real run's order is some permutation of
`0, ..., len(contexts)-1`.  `oracle i` is worker i's subprocess outcome. -/
def Execute (oracle : Nat → ProcOutcome) (contexts : List (List Char))
    (order : List Nat) : List Result :=
  order.foldl
    (fun acc i => acc.set i (executeOne (contexts.getD i []) (oracle i)))
    (List.replicate contexts.length defaultResult)

/-- The `context` record of a kubeconfig context entry (Go type `Context`
in pkg/cluster). -/
structure ContextInfo where
  Cluster : List Char
  User : List Char
  Namespace : List Char
deriving DecidableEq

/-- `cluster.ContextEntry`. -/
structure ContextEntry where
  Name : List Char
  Context : ContextInfo
deriving DecidableEq

/-- The parsed kubeconfig (`cluster.KubeConfig`); only the fields the
embedded operations read (`CurrentContext`, `Contexts`) are carried, the
cluster/user credential sections are never consulted by the core. -/
structure KubeConfig where
  CurrentContext : List Char
  Contexts : List ContextEntry
deriving DecidableEq

/-- `cluster.Manager`: the kubeconfig path plus the loaded config. -/
structure Manager where
  kubeConfigPath : List Char
  config : KubeConfig
deriving DecidableEq

/-- `Manager.GetContexts` (pkg/cluster): the names of all context entries,
in kubeconfig order (the Go append loop). -/
def GetContexts (m : Manager) : List (List Char) :=
  m.config.Contexts.map (fun e => e.Name)

/-- The `availableContexts` lookup map built inside `FilterContexts`
(`make(map[string]bool)` filled by a loop); modelled as the characteristic
function the loop constructs. -/
def availableContextsMap (entries : List ContextEntry) : List Char → Bool :=
  entries.foldl (fun acc e => fun s => if s = e.Name then true else acc s)
    (fun _ => false)

/-- `Manager.FilterContexts` (pkg/cluster, lines 124-141): with an empty
request return every context; otherwise keep, in request order, exactly the
requested names found in the lookup map. -/
def FilterContexts (m : Manager) (contexts : List (List Char)) :
    List (List Char) :=
  if contexts.isEmpty then GetContexts m
  else
    contexts.filter (fun c => availableContextsMap m.config.Contexts c)

/-- Go `strings.Contains(hay, needle)` on modelled strings. -/
def containsSub (needle : List Char) : List Char → Bool
  | [] => needle.isEmpty
  | c :: rest => needle.isPrefixOf (c :: rest) || containsSub needle rest

/-- Go `strings.Split(s, "\n")`: the segments of `s` between newline
characters; never empty, and `[""]` on the empty string. -/
def splitOnNl : List Char → List (List Char)
  | [] => [[]]
  | c :: rest =>
    match splitOnNl rest with
    | [] => [[c]]
    | h :: t => if c = '\n' then [] :: h :: t else (c :: h) :: t

/-- Go `strings.TrimSuffix(s, "\n")`: drop one trailing newline if present. -/
def trimSuffixNl (s : List Char) : List Char :=
  if s.getLast? = some '\n' then s.dropLast else s

/-- The line split `MergeResults` performs on a result's output:
`strings.Split(strings.TrimSuffix(output, "\n"), "\n")`. -/
def splitLines (out : List Char) : List (List Char) :=
  splitOnNl (trimSuffixNl out)

/-- The `clusterColumnWidth` computation of `Merger.MergeResults`: start at
7 (the width of the word CLUSTER) and raise to any longer context name. -/
def clusterWidth (results : List Result) : Nat :=
  results.foldl
    (fun w r => if r.Context.length > w then r.Context.length else w) 7

/-- Left-justified padding of Go's `%-Ns` verb: pad with spaces to width
`w`, leave longer strings unchanged. -/
def padTo (w : Nat) (s : List Char) : List Char :=
  s ++ List.replicate (w - s.length) ' '

/-- `Merger.formatLine`: the cluster cell padded to the column width, three
literal spaces, then the line text. -/
def formatLine (w : Nat) (cluster line : List Char) : List Char :=
  padTo w cluster ++ ' ' :: ' ' :: ' ' :: line

/-- The fixed keyword set of `Merger.isHeaderLine`. -/
def headerKeywords : List (List Char) :=
  (["NAME", "NAMESPACE", "STATUS", "READY", "AGE", "RESTARTS",
    "CLUSTER-IP", "EXTERNAL-IP", "PORT", "NODE", "NOMINATED",
    "READINESS", "REASON", "MESSAGE", "TYPE", "DATA", "CAPACITY",
    "ACCESS", "STORAGECLASS", "VOLUMEATTRIBUTESCLASS", "PROVISIONER",
    "RECLAIMPOLICY", "VOLUMEBINDINGMODE", "ALLOWVOLUMEEXPANSION",
    "COMPLETIONS", "DURATION", "SCHEDULE", "SUSPEND", "ACTIVE",
    "LAST", "DESIRED", "CURRENT", "UP-TO-DATE", "AVAILABLE",
    "REFERENCE", "TARGETS", "MINPODS", "MAXPODS", "REPLICAS"]).map
    String.data

/-- `Merger.isHeaderLine`: uppercase the line, count keyword substring
hits, accept with at least two. -/
def isHeaderLine (line : List Char) : Bool :=
  decide (2 ≤ headerKeywords.countP
    (fun k => containsSub k (line.map Char.toUpper)))

/-- The synthesized error line of `MergeResults`:
`fmt.Sprintf("# Error from cluster %s: %v\n", ...)`. -/
def errorLine (ctxName : List Char) (e : GoError) : List Char :=
  "# Error from cluster ".data ++ ctxName ++ ": ".data ++
    e.message ++ ['\n']

/-- The inner `for i, line := range lines` loop of `MergeResults`: skip
blank lines; at index 0 a keyword-accepted header is printed once (padded
with the CLUSTER label) while `headerPrinted` is still false and
`showHeaders` is set, and skipped otherwise; every other line is a data
row prefixed with the cluster cell.  Returns the emitted text and the
updated `headerPrinted` flag. -/
def processResultLines (w : Nat) (showHeaders : Bool) (ctxName : List Char) :
    List (List Char) → Nat → Bool → List Char × Bool
  | [], _, hp => ([], hp)
  | line :: rest, i, hp =>
    if line = [] then processResultLines w showHeaders ctxName rest (i + 1) hp
    else if i == 0 && isHeaderLine line then
      if !hp && showHeaders then
        let r := processResultLines w showHeaders ctxName rest (i + 1) true
        (formatLine w "CLUSTER".data line ++ '\n' :: r.1, r.2)
      else processResultLines w showHeaders ctxName rest (i + 1) hp
    else
      let r := processResultLines w showHeaders ctxName rest (i + 1) hp
      (formatLine w ctxName line ++ '\n' :: r.1, r.2)

/-- One iteration of the outer result loop of `MergeResults`: an errored
result contributes its synthesized error line, an empty output contributes
nothing, and otherwise the split lines are processed. -/
def processResult (w : Nat) (showHeaders : Bool) (hp : Bool) (r : Result) :
    List Char × Bool :=
  match r.Error with
  | some e => (errorLine r.Context e, hp)
  | none =>
    if r.Output = [] then ([], hp)
    else
      let lines := splitLines r.Output
      if lines = [] then ([], hp)
      else processResultLines w showHeaders r.Context lines 0 hp

/-- `Merger.MergeResults` (pkg/output): empty input yields the empty
string; otherwise compute the column width and fold the per-result
processing over the results in input order, threading `headerPrinted`. -/
def MergeResults (results : List Result) (showHeaders : Bool) : List Char :=
  if results.isEmpty then []
  else
    (results.foldl
      (fun (acc : List Char × Bool) r =>
        let p := processResult (clusterWidth results) showHeaders acc.2 r
        (acc.1 ++ p.1, p.2))
      ([], false)).1

/-- One result's block in `Merger.MergeNonTableOutput`: an errored result
contributes only the annotated delimiter line; a successful result
contributes the delimiter, the raw output with a newline guaranteed at its
end, and one blank separator line. -/
def nonTableBlock (r : Result) : List Char :=
  match r.Error with
  | some e =>
      "=== Cluster: ".data ++ r.Context ++ " (Error: ".data ++
        e.message ++ ") ===".data ++ ['\n']
  | none =>
      "=== Cluster: ".data ++ r.Context ++ " ===".data ++ ['\n'] ++
        r.Output ++
        (if r.Output.getLast? = some '\n' then [] else ['\n']) ++ ['\n']

/-- `Merger.MergeNonTableOutput` (pkg/output): concatenate the per-result
blocks in input order. -/
def MergeNonTableOutput (results : List Result) : List Char :=
  results.foldl (fun acc r => acc ++ nonTableBlock r) []

/-- Modelled from the spec: the trailing-whitespace trim that the spec's
dispatcher contract asserts is applied to captured stderr; the source
applies no such trim, so this definition exists only to compare the claim
against the code. -/
def rtrimSpecClaim (s : List Char) : List Char :=
  ((s.reverse).dropWhile
    (fun c => c = ' ' || c = '\t' || c = '\n' || c = '\r')).reverse

/-- Statement helper: replace the output of every errored result by an
arbitrary function of the result, leaving successful results untouched;
used to state that the mergers never read `Output` when `Error` is set. -/
def overrideErroredOutput (g : Result → List Char) (r : Result) : Result :=
  if r.Error.isSome then { r with Output := g r } else r

end Multikubectl

namespace Multikubectl

/-! ## Helper lemmas -/

theorem executeOne_Context (c : List Char) (o : ProcOutcome) :
    (executeOne c o).Context = c := by
  cases o with
  | exited code out e => by_cases h : code = 0 <;> simp [executeOne, h]
  | startFailed m => rfl
  | timedOut out e => rfl

theorem foldlSet_length {α : Type} (f : Nat → α) (order : List Nat)
    (init : List α) :
    (order.foldl (fun acc j => acc.set j (f j)) init).length = init.length := by
  induction order generalizing init with
  | nil => rfl
  | cons j rest ih =>
    rw [List.foldl_cons, ih]
    simp

theorem foldlSet_getElem?_notMem {α : Type} (f : Nat → α) (order : List Nat)
    (init : List α) (i : Nat) (h : i ∉ order) :
    (order.foldl (fun acc j => acc.set j (f j)) init)[i]? = init[i]? := by
  induction order generalizing init with
  | nil => rfl
  | cons j rest ih =>
    rw [List.foldl_cons, ih _ (fun hm => h (List.mem_cons_of_mem j hm))]
    exact List.getElem?_set_ne
      (fun hj => h (by rw [← hj]; exact List.mem_cons_self j rest))

theorem foldlSet_getElem?_mem {α : Type} (f : Nat → α) (order : List Nat)
    (init : List α) (i : Nat) (hmem : i ∈ order) (hlen : i < init.length) :
    (order.foldl (fun acc j => acc.set j (f j)) init)[i]? = some (f i) := by
  induction order generalizing init with
  | nil => cases hmem
  | cons j rest ih =>
    rw [List.foldl_cons]
    by_cases hr : i ∈ rest
    · exact ih _ hr (by simpa using hlen)
    · have hij : i = j := by
        rcases List.mem_cons.mp hmem with h | h
        · exact h
        · exact absurd h hr
      subst hij
      rw [foldlSet_getElem?_notMem f rest _ i hr]
      exact List.getElem?_set_self hlen

/-! ## Claims about the dispatcher -/

/-- Claim C1: for every target list, every command, and every order in which
the concurrent workers happen to finish (any permutation of the worker
indices), Execute returns a result list whose length equals the target list
length, whose i-th element is exactly worker i's result, and whose i-th
element's Context equals the i-th target. -/
theorem execute_length_and_alignment (oracle : Nat → ProcOutcome)
    (contexts : List (List Char)) (order : List Nat)
    (hperm : order.Perm (List.range contexts.length)) :
    (Execute oracle contexts order).length = contexts.length ∧
    ∀ i, i < contexts.length →
      (Execute oracle contexts order).getD i defaultResult
        = executeOne (contexts.getD i []) (oracle i) ∧
      ((Execute oracle contexts order).getD i defaultResult).Context
        = contexts.getD i [] := by
  have hlen : (Execute oracle contexts order).length = contexts.length := by
    have h := foldlSet_length
      (fun j => executeOne (contexts.getD j []) (oracle j)) order
      (List.replicate contexts.length defaultResult)
    rw [List.length_replicate] at h
    exact h
  refine ⟨hlen, ?_⟩
  intro i hi
  have hmem : i ∈ order := hperm.mem_iff.mpr (List.mem_range.mpr hi)
  have hget : (Execute oracle contexts order)[i]?
      = some (executeOne (contexts.getD i []) (oracle i)) :=
    foldlSet_getElem?_mem
      (fun j => executeOne (contexts.getD j []) (oracle j)) order
      (List.replicate contexts.length defaultResult) i hmem
      (by rw [List.length_replicate]; exact hi)
  constructor
  · rw [List.getD_eq_getElem?_getD, hget]
    rfl
  · rw [List.getD_eq_getElem?_getD, hget]
    exact executeOne_Context _ _

/-- Witness for C1: two targets, workers finishing in reversed order. -/
theorem execute_length_and_alignment_witness :
    ([1, 0] : List Nat).Perm
      (List.range (["c1".data, "c2".data] : List (List Char)).length) ∧
    (Execute (fun _ => .exited 0 "ok\n".data []) ["c1".data, "c2".data]
        [1, 0]).length = 2 ∧
    ((Execute (fun _ => .exited 0 "ok\n".data []) ["c1".data, "c2".data]
        [1, 0]).getD 0 defaultResult).Context = "c1".data ∧
    ((Execute (fun _ => .exited 0 "ok\n".data []) ["c1".data, "c2".data]
        [1, 0]).getD 1 defaultResult).Context = "c2".data :=
  ⟨by decide,
   (execute_length_and_alignment _ _ _ (by decide)).1,
   ((execute_length_and_alignment _ _ _ (by decide)).2 0 (by decide)).2,
   ((execute_length_and_alignment _ _ _ (by decide)).2 1 (by decide)).2⟩

/-- Claim C3, counterexample: a process exiting nonzero with stderr text
"boom\n" yields a result whose error message is the raw text "boom\n",
which differs from the trailing-whitespace-trimmed text "boom" the claim
asserts is stored. -/
theorem executeOne_stderr_untrimmed_cex :
    (executeOne ("c1".data) (.exited 1 [] ("boom\n".data))).Error
      = some (.stderrMsg ("boom\n".data)) ∧
    rtrimSpecClaim ("boom\n".data) = "boom".data ∧
    ("boom\n".data : List Char) ≠ "boom".data := by
  decide

/-- Claim C3 (amended): for every subprocess exiting with a nonzero status,
the result's error holds the captured stderr text exactly as captured (no
trailing-whitespace trim), and ExitCode holds the numeric exit code. -/
theorem executeOne_nonzero_exit_result (ctxName out errTxt : List Char)
    (code : Int) (h : code ≠ 0) :
    executeOne ctxName (.exited code out errTxt)
      = ⟨ctxName, out, some (.stderrMsg errTxt), code⟩ := by
  simp [executeOne, h]

/-- Witness for the amended C3 at exit code 2. -/
theorem executeOne_nonzero_exit_result_witness :
    (2 : Int) ≠ 0 ∧
    executeOne "c1".data (.exited 2 "out".data "boom\n".data)
      = ⟨"c1".data, "out".data, some (.stderrMsg "boom\n".data), 2⟩ :=
  ⟨by decide,
   executeOne_nonzero_exit_result "c1".data "out".data "boom\n".data 2
     (by decide)⟩

/-- Claim C8, counterexample: a target whose subprocess is killed at the
deadline gets an error value identical to the one a nonzero exit with the
same stderr produces (the stderr-message kind) — there is no distinct
timeout-error kind; only the spawn-error kind is distinguishable. -/
theorem executeOne_timeout_same_kind_cex :
    (executeOne "c1".data (.timedOut "o".data "e".data)).Error
      = (executeOne "c1".data (.exited 1 "o".data "e".data)).Error ∧
    (executeOne "c1".data (.timedOut "o".data "e".data)).ExitCode = -1 ∧
    (executeOne "c1".data (.startFailed "x".data)).Error
      = some (.spawnErr "x".data) := by
  decide

/-- Claim C8 (amended): a target that exceeds its deadline gets a result
whose error is the same stderr-message kind a nonzero exit produces, with
ExitCode -1 (the signal-kill code); the error value is indistinguishable
from that of a nonzero exit with the same captured stderr. -/
theorem executeOne_timeout_result (ctxName out errTxt : List Char) :
    executeOne ctxName (.timedOut out errTxt)
      = ⟨ctxName, out, some (.stderrMsg errTxt), -1⟩ ∧
    (executeOne ctxName (.timedOut out errTxt)).Error
      = (executeOne ctxName (.exited 1 out errTxt)).Error := by
  refine ⟨rfl, ?_⟩
  simp [executeOne]

/-- Claim C10: executeOne stores the captured stdout in the Output field
for every outcome (nonzero exit, spawn failure, timeout included), so an
errored result still carries whatever stdout the process produced. -/
theorem executeOne_output_unconditional :
    (∀ (ctxName : List Char) (o : ProcOutcome),
        (executeOne ctxName o).Output = capturedStdout o) ∧
    (executeOne "c".data (.exited 2 "kept".data "err".data)).Error.isSome
        = true ∧
    (executeOne "c".data (.exited 2 "kept".data "err".data)).Output
        = "kept".data ∧
    (executeOne "c".data (.timedOut "kept2".data [])).Error.isSome = true ∧
    (executeOne "c".data (.timedOut "kept2".data [])).Output
        = "kept2".data := by
  refine ⟨?_, by decide, by decide, by decide, by decide⟩
  intro ctxName o
  cases o with
  | exited code out errTxt => by_cases h : code = 0 <;> simp [executeOne, h, capturedStdout]
  | startFailed m => rfl
  | timedOut out errTxt => rfl

/-! ## Claims about the context manager -/

theorem availableContextsMap_eq (entries : List ContextEntry)
    (s : List Char) :
    availableContextsMap entries s
      = (entries.map (fun e => e.Name)).contains s := by
  suffices h : ∀ acc : List Char → Bool,
      (entries.foldl
          (fun acc e => fun t => if t = e.Name then true else acc t) acc) s
        = (acc s || (entries.map (fun e => e.Name)).contains s) by
    have h2 := h (fun _ => false)
    simpa [availableContextsMap] using h2
  induction entries with
  | nil => intro acc; simp
  | cons e es ih =>
    intro acc
    rw [List.foldl_cons, ih]
    by_cases hse : s = e.Name
    · simp [hse]
    · simp [hse, List.contains_cons, Bool.or_assoc]

/-- Claim C7: for every non-empty requested list, FilterContexts returns
exactly the requested names present among the kubeconfig's context names,
in requested order; unknown names are dropped with no error. -/
theorem filterContexts_requested_order (m : Manager)
    (req : List (List Char)) (h : req ≠ []) :
    FilterContexts m req
      = req.filter (fun c => (GetContexts m).contains c) := by
  unfold FilterContexts
  rw [if_neg (by simp [List.isEmpty_iff, h])]
  exact List.filter_congr (fun c _ => by rw [availableContextsMap_eq]; rfl)

/-- Witness for C7: a two-context kubeconfig and a request naming one
known, one unknown and another known context. -/
theorem filterContexts_requested_order_witness :
    (["stage".data, "nope".data, "prod".data] : List (List Char)) ≠ [] ∧
    FilterContexts
        ⟨"kc".data, ⟨"prod".data,
          [⟨"prod".data, ⟨"pc".data, "pu".data, []⟩⟩,
           ⟨"stage".data, ⟨"sc".data, "su".data, []⟩⟩]⟩⟩
        ["stage".data, "nope".data, "prod".data]
      = (["stage".data, "nope".data, "prod".data]).filter
          (fun c =>
            (GetContexts ⟨"kc".data, ⟨"prod".data,
              [⟨"prod".data, ⟨"pc".data, "pu".data, []⟩⟩,
               ⟨"stage".data, ⟨"sc".data, "su".data, []⟩⟩]⟩⟩).contains c) :=
  ⟨by decide, filterContexts_requested_order _ _ (by decide)⟩

/-- Claim C9: with an empty requested list, FilterContexts returns the full
ordered list of context names from the kubeconfig. -/
theorem filterContexts_empty_returns_all (m : Manager) :
    FilterContexts m [] = GetContexts m ∧
    FilterContexts m [] = m.config.Contexts.map (fun e => e.Name) :=
  ⟨rfl, rfl⟩

end Multikubectl

namespace Multikubectl

/-! ## Claims about the grouped merge -/

theorem mergeNonTable_eq_join (results : List Result) :
    MergeNonTableOutput results = (results.map nonTableBlock).flatten := by
  suffices h : ∀ acc, results.foldl (fun a r => a ++ nonTableBlock r) acc
      = acc ++ (results.map nonTableBlock).flatten by
    have h2 := h []
    simpa [MergeNonTableOutput] using h2
  induction results with
  | nil => intro acc; simp
  | cons r rs ih =>
    intro acc
    rw [List.foldl_cons, ih]
    simp

/-- Claim C4, counterexample: on target A (output "abc", success) and
target B (error "boom"), the grouped merge produces a string that ends
right after B's delimiter line — the blank separator line the claim puts
after an errored target's block is absent, so the claimed exact string
(with a final extra newline) is not produced. -/
theorem mergeNonTable_error_separator_cex :
    MergeNonTableOutput
        [⟨"A".data, "abc".data, none, 0⟩,
         ⟨"B".data, [], some (.stderrMsg "boom".data), 0⟩]
      = "=== Cluster: A ===\nabc\n\n=== Cluster: B (Error: boom) ===\n".data ∧
    ("=== Cluster: A ===\nabc\n\n=== Cluster: B (Error: boom) ===\n".data
        : List Char)
      ≠ "=== Cluster: A ===\nabc\n\n=== Cluster: B (Error: boom) ===\n\n".data := by
  decide

/-- Claim C4 (amended): the grouped merge concatenates per-result blocks in
input order; on targets A (output "abc") and B (error "boom") it produces
exactly "=== Cluster: A ===\nabc\n\n=== Cluster: B (Error: boom) ===\n".
Every successful target's block ends with one blank separator line, while
an errored target contributes only its annotated delimiter line, with no
separator after it. -/
theorem mergeNonTable_grouped_blocks :
    MergeNonTableOutput
        [⟨"A".data, "abc".data, none, 0⟩,
         ⟨"B".data, [], some (.stderrMsg "boom".data), 0⟩]
      = "=== Cluster: A ===\nabc\n\n=== Cluster: B (Error: boom) ===\n".data ∧
    (∀ results, MergeNonTableOutput results
        = (results.map nonTableBlock).flatten) ∧
    (∀ (ctxName out : List Char) (ec : Int) (e : GoError),
        nonTableBlock ⟨ctxName, out, some e, ec⟩
          = "=== Cluster: ".data ++ ctxName ++ " (Error: ".data
              ++ e.message ++ ") ===".data ++ ['\n']) ∧
    (∀ (ctxName out : List Char) (ec : Int), ∃ body,
        nonTableBlock ⟨ctxName, out, none, ec⟩
          = "=== Cluster: ".data ++ ctxName ++ " ===".data
              ++ '\n' :: body ++ '\n' :: '\n' :: []) := by
  refine ⟨by decide, mergeNonTable_eq_join, fun _ _ _ _ => rfl, ?_⟩
  intro ctxName out ec
  by_cases h : out.getLast? = some '\n'
  · have hne : out ≠ [] := by
      intro h0
      rw [h0] at h
      simp at h
    have hlast : out.getLast hne = '\n' := by
      have h2 := List.getLast?_eq_getLast out hne
      rw [h2] at h
      exact Option.some_inj.mp h
    refine ⟨out.dropLast, ?_⟩
    have hout : out.dropLast ++ ['\n'] = out := by
      have h3 := List.dropLast_concat_getLast hne
      rw [hlast] at h3
      exact h3
    simp only [nonTableBlock, h, if_pos]
    rw [← hout]
    simp
  · refine ⟨out, ?_⟩
    simp only [nonTableBlock, if_neg h]
    simp

/-! ## Claims about error isolation in both merges -/

theorem overrideErroredOutput_Context (g : Result → List Char) (r : Result) :
    (overrideErroredOutput g r).Context = r.Context := by
  unfold overrideErroredOutput
  split <;> rfl

theorem processResult_override (w : Nat) (sh hp : Bool)
    (g : Result → List Char) (r : Result) :
    processResult w sh hp (overrideErroredOutput g r)
      = processResult w sh hp r := by
  obtain ⟨c, o, err, ec⟩ := r
  cases err <;> simp [overrideErroredOutput, processResult]

theorem clusterWidth_override (g : Result → List Char)
    (results : List Result) :
    clusterWidth (results.map (overrideErroredOutput g))
      = clusterWidth results := by
  unfold clusterWidth
  rw [List.foldl_map]
  simp only [overrideErroredOutput_Context]

theorem nonTableBlock_override (g : Result → List Char) (r : Result) :
    nonTableBlock (overrideErroredOutput g r) = nonTableBlock r := by
  obtain ⟨c, o, err, ec⟩ := r
  cases err <;> simp [overrideErroredOutput, nonTableBlock]

theorem mergeFold_override (g : Result → List Char) (results : List Result)
    (w : Nat) (sh : Bool) (acc : List Char × Bool) :
    (results.map (overrideErroredOutput g)).foldl
        (fun acc r =>
          let p := processResult w sh acc.2 r
          (acc.1 ++ p.1, p.2)) acc
      = results.foldl
          (fun acc r =>
            let p := processResult w sh acc.2 r
            (acc.1 ++ p.1, p.2)) acc := by
  rw [List.foldl_map]
  simp only [processResult_override]

/-- Claim C6: a result carrying an error contributes exactly one
synthesized "# Error from cluster ..." line to the tabular merge (no data
rows, headerPrinted untouched), and neither merge algorithm reads the
Output field of an errored result: replacing every errored result's output
by anything leaves both merged strings unchanged.  Both merges are total
functions — merging never fails. -/
theorem merge_error_isolated_and_output_unread :
    (∀ (w : Nat) (sh hp : Bool) (ctxName out : List Char) (ec : Int)
        (e : GoError),
        processResult w sh hp ⟨ctxName, out, some e, ec⟩
          = (errorLine ctxName e, hp)) ∧
    (∀ (results : List Result) (sh : Bool) (g : Result → List Char),
        MergeResults (results.map (overrideErroredOutput g)) sh
          = MergeResults results sh) ∧
    (∀ (results : List Result) (g : Result → List Char),
        MergeNonTableOutput (results.map (overrideErroredOutput g))
          = MergeNonTableOutput results) := by
  refine ⟨fun _ _ _ _ _ _ _ => rfl, ?_, ?_⟩
  · intro results sh g
    by_cases h : results = []
    · rw [h]
      rfl
    · unfold MergeResults
      rw [if_neg (by simp [List.isEmpty_iff, h]),
        if_neg (by simp [List.isEmpty_iff, h])]
      rw [clusterWidth_override]
      exact congrArg Prod.fst (mergeFold_override g results _ sh ([], false))
  · intro results g
    unfold MergeNonTableOutput
    rw [List.foldl_map]
    simp only [nonTableBlock_override]

end Multikubectl

namespace Multikubectl

/-! ## Claims about line handling in the tabular merge -/

/-- Claim C2, counterexample: a successful result whose output "a\n\nb\n"
contains an interior blank line merges to two data rows and no empty row —
the interior blank line is dropped, not preserved as an empty data row. -/
theorem mergeResults_blank_line_dropped_cex :
    MergeResults [⟨"ctx".data, "a\n\nb\n".data, none, 0⟩] true
      = "ctx       a\nctx       b\n".data ∧
    splitLines "a\n\nb\n".data = ["a".data, [], "b".data] ∧
    [] ∉ splitLines "ctx       a\nctx       b\n".data := by
  refine ⟨by decide, by decide, by decide⟩

/-- Claim C2 (amended): the tabular merge splits a successful result's
output into lines dropping a single trailing empty line caused by a final
newline, and then drops every blank line: away from the header position the
emitted rows are exactly the non-blank lines, each formatted with the
cluster prefix, so an interior blank line contributes no data row. -/
theorem mergeResults_line_splitting :
    (∀ s : List Char, s.getLast? ≠ some '\n' →
        splitLines (s ++ ['\n']) = splitOnNl s ∧ splitLines s = splitOnNl s) ∧
    (∀ (w : Nat) (ctxName : List Char) (lines : List (List Char))
        (hp : Bool) (i : Nat), i ≠ 0 →
        processResultLines w true ctxName lines i hp
          = (((lines.filter (fun l => !l.isEmpty)).map
                (fun l => formatLine w ctxName l ++ ['\n'])).flatten, hp)) := by
  constructor
  · intro s h
    constructor
    · unfold splitLines trimSuffixNl
      rw [if_pos (List.getLast?_concat s), List.dropLast_concat]
    · unfold splitLines trimSuffixNl
      rw [if_neg h]
  · intro w c lines
    induction lines with
    | nil =>
      intro hp i hi
      simp [processResultLines]
    | cons l rest ih =>
      intro hp i hi
      by_cases hl : l = []
      · subst hl
        simp only [processResultLines, if_pos rfl]
        rw [ih hp (i + 1) (Nat.succ_ne_zero i)]
        simp
      · have hi0 : (i == 0) = false := by simpa using hi
        simp only [processResultLines, if_neg hl, hi0, Bool.false_and,
          Bool.false_eq_true, if_false]
        rw [ih hp (i + 1) (Nat.succ_ne_zero i)]
        simp [hl]

/-- Witness for the amended C2: the trailing-newline drop on "abc\n" and
the blank-skipping row production on lines "x", "", "y" at index 1. -/
theorem mergeResults_line_splitting_witness :
    ("abc".data.getLast? ≠ some '\n') ∧
    splitLines ("abc".data ++ ['\n']) = splitOnNl "abc".data ∧
    (1 : Nat) ≠ 0 ∧
    processResultLines 7 true "c".data ["x".data, [], "y".data] 1 false
      = (((["x".data, [], "y".data].filter (fun l => !l.isEmpty)).map
            (fun l => formatLine 7 "c".data l ++ ['\n'])).flatten, false) :=
  ⟨by decide,
   (mergeResults_line_splitting.1 "abc".data (by decide)).1,
   by decide,
   mergeResults_line_splitting.2 7 "c".data ["x".data, [], "y".data] false 1
     (by decide)⟩

end Multikubectl

namespace Multikubectl

theorem ifGtEqMax (w a : Nat) : (if a > w then a else w) = max w a := by
  by_cases h : a > w
  · rw [if_pos h, Nat.max_eq_right (Nat.le_of_lt h)]
  · rw [if_neg h, Nat.max_eq_left (Nat.le_of_not_lt h)]

/-- Claim C5: for two successful results whose outputs split into the same
keyword-accepted header line plus one non-blank data row each, the tabular
merge emits exactly one header line prefixed with the literal CLUSTER label
and exactly two data lines, every prefix left-justified to the column width
max(7, length of the longest target name) followed by three spaces; the
second result's accepted header is discarded. -/
theorem mergeResults_shared_header_two_rows
    (t1 t2 hdr r1 r2 o1 o2 : List Char)
    (h1 : splitLines o1 = [hdr, r1]) (h2 : splitLines o2 = [hdr, r2])
    (ho1 : o1 ≠ []) (ho2 : o2 ≠ [])
    (hH : isHeaderLine hdr = true) (hr1 : r1 ≠ []) (hr2 : r2 ≠ []) :
    MergeResults [⟨t1, o1, none, 0⟩, ⟨t2, o2, none, 0⟩] true
      = formatLine (max 7 (max t1.length t2.length)) "CLUSTER".data hdr
          ++ '\n' :: (formatLine (max 7 (max t1.length t2.length)) t1 r1
          ++ '\n' :: (formatLine (max 7 (max t1.length t2.length)) t2 r2
          ++ ['\n'])) := by
  have hhdr : hdr ≠ [] := by
    intro h0
    rw [h0] at hH
    exact absurd hH (by decide)
  have hw : clusterWidth [⟨t1, o1, none, 0⟩, ⟨t2, o2, none, 0⟩]
      = max 7 (max t1.length t2.length) := by
    simp only [clusterWidth, List.foldl_cons, List.foldl_nil, ifGtEqMax]
    exact Nat.max_assoc 7 t1.length t2.length
  unfold MergeResults
  rw [if_neg (by simp)]
  rw [hw]
  simp only [List.foldl_cons, List.foldl_nil]
  simp [processResult, processResultLines, h1, h2, ho1, ho2, hH, hhdr,
    hr1, hr2]

/-- Witness for C5: targets c1 and c2 sharing the header line
NAME READY STATUS with one pod row each. -/
theorem mergeResults_shared_header_two_rows_witness :
    splitLines "NAME READY STATUS\npod-1 1/1 Running\n".data
      = ["NAME READY STATUS".data, "pod-1 1/1 Running".data] ∧
    splitLines "NAME READY STATUS\npod-2 0/1 Pending\n".data
      = ["NAME READY STATUS".data, "pod-2 0/1 Pending".data] ∧
    isHeaderLine "NAME READY STATUS".data = true ∧
    MergeResults
        [⟨"c1".data, "NAME READY STATUS\npod-1 1/1 Running\n".data, none, 0⟩,
         ⟨"c2".data, "NAME READY STATUS\npod-2 0/1 Pending\n".data, none, 0⟩]
        true
      = formatLine (max 7 (max "c1".data.length "c2".data.length))
            "CLUSTER".data "NAME READY STATUS".data
          ++ '\n' :: (formatLine
            (max 7 (max "c1".data.length "c2".data.length))
            "c1".data "pod-1 1/1 Running".data
          ++ '\n' :: (formatLine
            (max 7 (max "c1".data.length "c2".data.length))
            "c2".data "pod-2 0/1 Pending".data
          ++ ['\n'])) :=
  ⟨by decide, by decide, by decide,
   mergeResults_shared_header_two_rows "c1".data "c2".data
     "NAME READY STATUS".data "pod-1 1/1 Running".data
     "pod-2 0/1 Pending".data
     "NAME READY STATUS\npod-1 1/1 Running\n".data
     "NAME READY STATUS\npod-2 0/1 Pending\n".data
     (by decide) (by decide) (by decide) (by decide) (by decide)
     (by decide) (by decide)⟩

end Multikubectl
